import Mathlib

/-!
Verification development for the loadmaster certificate manager.

The Go source is shallowly embedded:

* Byte slices (`[]byte`) are modelled by `Bytes`, an inductive that classifies a
  byte string by what the external decoders (`pem.Decode`, `x509.ParseCertificate`,
  `x509.ParsePKCS8PrivateKey`, `encoding/json`) yield on it.  Each constructor is
  one decode class; `Bytes.nil` is the empty (or nil) slice, and `pem.Decode`
  of an empty slice yields no block.
* The S3 blob store and the local filesystem are each modelled as an association
  list from paths to bytes (`Store`); a path is its list of components
  (`path.Join`/`filepath.Join` cleaning of exotic component strings is not
  modelled).  Directories have no representation, so `os.MkdirAll` is a no-op
  and its possible failure is folded into the write-failure knobs below.
* External collaborators are parameters giving the outcome of the single call a
  pass makes to them: the outcome of `renewACMECertificate` (on any error the Go
  function returns `nil, nil, err`, so the outcome is `Except` of the pair), the
  outcome of `generateSelfSignedCert` (repository code not present under src/;
  modelled from the spec contract `generate(domainRoot) -> (certBytes, keyBytes)`),
  and failure knobs for the local-disk write and the two S3 uploads.
* Time is measured in whole hours; `int(time.Until(t).Hours() / 24)` becomes
  truncated division of the hour difference by 24.
* A Go panic (index out of range on an empty domain group) is the distinguished
  outcome `GoRet.panicked`.
-/

/-- Go error values, by their message. -/
abbrev GoError := String

/-- A filesystem or object-store path (named FPath to avoid the Mathlib name), as its list of components. -/
abbrev FPath := List String

/-- Result of `x509.ParsePKCS8PrivateKey` on the DER payload of a PEM block:
an ECDSA key, some other key type, or a parse failure.  The `id` distinguishes
distinct concrete keys/payloads. -/
inductive KeyParse
  | ecdsaKey (id : Nat)
  | otherKey (id : Nat)
  | badDer (id : Nat)
  deriving DecidableEq, Repr

/-- The decoded content of a PEM block: a CERTIFICATE block whose DER payload
parses to a certificate with the given `NotAfter` instant (in hours), or fails
to parse (`none`); a PRIVATE KEY block; or a block of another type. -/
inductive PemBlockData
  | cert (notAfter : Option Int)
  | privKey (k : KeyParse)
  | other (blockType : String)
  deriving DecidableEq, Repr

/-- JSON documents the program reads back: a marshalled `DomainUser`
(email + optional registration) or a marshalled `registration.Resource`
(abstracted to a `Nat` identity). -/
inductive JsonDoc
  | userDoc (email : String) (reg : Option Nat)
  | regDoc (reg : Nat)
  deriving DecidableEq, Repr

/-- A byte string, classified by decode outcome.  `nil` is the empty slice;
`blob` is a non-empty slice that is neither a PEM block nor a JSON document of
interest; `pem`/`json` carry the decode result (the `tag` distinguishes
distinct byte strings in the same PEM decode class). -/
inductive Bytes
  | nil
  | blob (data : List Nat)
  | pem (block : PemBlockData) (tag : Nat)
  | json (doc : JsonDoc)
  deriving DecidableEq, Repr

/-- `len(b) == 0` for the modelled slice. -/
def Bytes.isEmpty : Bytes → Bool
  | .nil => true
  | _ => false

/-- A path-to-bytes map (local filesystem or S3 bucket contents). -/
abbrev Store := List (FPath × Bytes)

/-- Write (or overwrite) the object at `k`. -/
def Store.put (s : Store) (k : FPath) (v : Bytes) : Store := (k, v) :: s

/-- Read the object at `k`; `none` models `os.ReadFile` error / S3 NoSuchKey. -/
def Store.get : Store → FPath → Option Bytes
  | [], _ => none
  | (k', v) :: s, k => if k' = k then some v else Store.get s k

/-- Outcome of one Go call that returns `error`, with Go panic distinguished. -/
inductive GoRet
  | ok
  | err (e : GoError)
  | panicked
  deriving DecidableEq, Repr

/-- `var loadmasterHomeDir = path.Join(os.Getenv("HOME"), ".loadmaster")`,
parameterised by the HOME environment value. -/
def loadmasterHomeDir (home : String) : FPath := [home, ".loadmaster"]

/-- `var localCertDir = filepath.Join(loadmasterHomeDir, "certs")`. -/
def localCertDir (home : String) : FPath := loadmasterHomeDir home ++ ["certs"]

/-- `MaxRemainingDaysBeforeCertExpiry`: renewal window in days. -/
def MaxRemainingDaysBeforeCertExpiry : Int := 60

/-- A parsed `x509.Certificate`, reduced to the field the program reads. -/
structure CertInfo where
  notAfter : Int
  deriving DecidableEq, Repr

/-- `parseCertificate` (cert.go): `pem.Decode`, check the block type is
CERTIFICATE, then `x509.ParseCertificate` on the payload. -/
def parseCertificate : Bytes → Except GoError CertInfo
  | .pem (.cert (some notAfter)) _ => .ok ⟨notAfter⟩
  | .pem (.cert none) _ => .error "error parsing certificate"
  | .pem (.privKey _) _ => .error "failed to decode PEM certificate. block type is not 'CERTIFICATE'"
  | .pem (.other _) _ => .error "failed to decode PEM certificate. block type is not 'CERTIFICATE'"
  | _ => .error "failed to decode PEM certificate: cert bytes == nil"

/-- `int(time.Until(expirationDate).Hours() / 24)`: remaining whole days from
`now` to `notAfter` (both in hours), truncated toward zero as Go's `int()`. -/
def remainingDays (now notAfter : Int) : Int := Int.tdiv (notAfter - now) 24

/-- `certExpiresSoon(certData, maxRemainingDaysBeforeCertExpiry)`: parse the
certificate (parse failure returns `(true, err)`), then renew iff the remaining
days are at most the window. -/
def certExpiresSoon (now : Int) (certData : Bytes) (maxRemainingDaysBeforeCertExpiry : Int) :
    Bool × Option GoError :=
  match parseCertificate certData with
  | .error e => (true, some ("error parsing certificate: " ++ e))
  | .ok cert =>
    if remainingDays now cert.notAfter ≤ maxRemainingDaysBeforeCertExpiry then (true, none)
    else (false, none)

/-- `GetLocalCertFilenames(domain)`: the fixed cert/key paths under the domain's
local certificate directory. -/
def GetLocalCertFilenames (home : String) (domain : String) : FPath × FPath :=
  (localCertDir home ++ [domain, "cert.pem"], localCertDir home ++ [domain, "privkey.pem"])

/-- `removeExisting(domain)`: `os.RemoveAll` of the domain's local certificate
directory (errors are only logged).  In the map model this drops every path
lying under that directory. -/
def removeExisting (home : String) (fs : Store) (domain : String) : Store :=
  fs.filter (fun kv => !(List.isPrefixOf (localCertDir home ++ [domain]) kv.1))

/-- `writeCertToFilesToDisk(domain, certData, privateKeyData)`: `os.MkdirAll`
then two `os.WriteFile` calls.  `diskWrite = some e` models any of the three
operations failing; `none` means the writes land in the map. -/
def writeCertToFilesToDisk (home : String) (diskWrite : Option GoError) (fs : Store)
    (domain : String) (certData privateKeyData : Bytes) : Except GoError Store :=
  match diskWrite with
  | some e => .error ("failed to write certificate to disk: " ++ e)
  | none =>
    let (certFilename, privateKeyFilename) := GetLocalCertFilenames home domain
    .ok (Store.put (Store.put fs certFilename certData) privateKeyFilename privateKeyData)

/-- `LocalACMEStorage.DownloadCert(domainRoot)`: read `cert.pem` and
`privkey.pem` from the domain's local certificate directory; a read error or a
zero-length file is an error. -/
def LocalACMEStorage.DownloadCert (home : String) (fs : Store) (domainRoot : String) :
    Except GoError (Bytes × Bytes) :=
  let certDir := localCertDir home ++ [domainRoot]
  match Store.get fs (certDir ++ ["cert.pem"]) with
  | none => .error "certificate not found"
  | some certData =>
    if certData.isEmpty then .error "certificate not found"
    else
      match Store.get fs (certDir ++ ["privkey.pem"]) with
      | none => .error "private key not found"
      | some keyData =>
        if keyData.isEmpty then .error "private key not found"
        else .ok (certData, keyData)

/-- `LocalACMEStorage.SaveCert`: always `'saveCerts' not implemented`. -/
def LocalACMEStorage.SaveCert (_domainRoot : String) (_certData _privateKeyData : Bytes) :
    Except GoError Unit :=
  .error "'saveCerts' not implemented in LocalACMEStorage"

/-- S3 object key `<serviceName>/certs/<domainRoot>/cert.pem`. -/
def s3CertKey (serviceName domainRoot : String) : FPath :=
  [serviceName, "certs", domainRoot, "cert.pem"]

/-- S3 object key `<serviceName>/certs/<domainRoot>/privkey.pem`. -/
def s3PrivKeyKey (serviceName domainRoot : String) : FPath :=
  [serviceName, "certs", domainRoot, "privkey.pem"]

/-- Per-pass outcomes of the external collaborators used by a reconciliation
pass.  `renew` is the result of `renewACMECertificate` (its Go implementation
returns `nil, nil, err` on every failure path and the certificate/key pair on
success).  `selfSigned` is the result of `generateSelfSignedCert(domainRoot)`.
Modelled from the spec: `generateSelfSignedCert` is repository code not present
under src/; the spec contract is `generate(domainRoot) -> (certBytes, keyBytes)`,
never failing under normal conditions, so only its outcome appears here.
`diskWrite` is the failure knob of `writeCertToFilesToDisk`; `putCert`/`putKey`
are the failure knobs of the two independent S3 uploads in `SaveCert`. -/
structure PassEnv where
  renew : Except GoError (Bytes × Bytes)
  selfSigned : Except GoError (Bytes × Bytes)
  diskWrite : Option GoError
  putCert : Option GoError
  putKey : Option GoError
  deriving Repr

/-- `S3ACMEStorage.SaveCert(domainRoot, cert, privateKey)`: two independent
uploads, cert object first; a failure of either upload aborts with an error,
leaving whatever was already written. -/
def S3ACMEStorage.SaveCert (serviceName : String) (env : PassEnv) (store : Store)
    (domainRoot : String) (cert privateKey : Bytes) : Store × Option GoError :=
  match env.putCert with
  | some e => (store, some ("error while uploading certificate files to S3: " ++ e))
  | none =>
    let store1 := Store.put store (s3CertKey serviceName domainRoot) cert
    match env.putKey with
    | some e => (store1, some ("error while uploading certificate files to S3: " ++ e))
    | none => (Store.put store1 (s3PrivKeyKey serviceName domainRoot) privateKey, none)

/-- `S3ACMEStorage.DownloadCert(domainRoot)`: download `cert.pem` then
`privkey.pem` for the domain root; a missing object is an error, but there is
no zero-length check (the local `mkdir` of the cert folder has no observable
effect in the map model). -/
def S3ACMEStorage.DownloadCert (serviceName : String) (store : Store) (domainRoot : String) :
    Except GoError (Bytes × Bytes) :=
  match Store.get store (s3CertKey serviceName domainRoot) with
  | none => .error "error while downloading certificate file from S3"
  | some certData =>
    match Store.get store (s3PrivKeyKey serviceName domainRoot) with
    | none => .error "error while downloading private key from S3"
    | some privateKeyData => .ok (certData, privateKeyData)

/-- The common tail of both `UpdateTLS` variants (local.go lines 183-197 and
the S3 variant lines 594-608): if the working record has an empty certificate
or key, fall back to `generateSelfSignedCert`; then `removeExisting` and
`writeCertToFilesToDisk`.  Returns the resulting local filesystem and the Go
return value. -/
def certPublishStep (home : String) (selfSigned : Except GoError (Bytes × Bytes))
    (diskWrite : Option GoError) (fs : Store) (domainRoot : String)
    (certData privateKeyData : Bytes) : Store × GoRet :=
  let working : Except GoError (Bytes × Bytes) :=
    if certData.isEmpty || privateKeyData.isEmpty then
      match selfSigned with
      | .error e => .error ("error generating self-signed certificate (as a result of errors renewing certificate via ACME protocol): " ++ e)
      | .ok ck => .ok ck
    else .ok (certData, privateKeyData)
  match working with
  | .error e => (fs, .err e)
  | .ok (c, k) =>
    let fs1 := removeExisting home fs domainRoot
    match writeCertToFilesToDisk home diskWrite fs1 domainRoot c k with
    | .error e => (fs1, .err ("error writing certificate to disk: " ++ e))
    | .ok fs2 => (fs2, .ok)

/-- The certificate/key pair assigned by `certData, privateKeyData, err =
renewACMECertificate(...)`: the renewed pair on success, nil slices on failure
(every failure path of the Go function returns `nil, nil, err`). -/
def renewedPair : Except GoError (Bytes × Bytes) → Bytes × Bytes
  | .ok ck => ck
  | .error _ => (Bytes.nil, Bytes.nil)

/-- Result of one `UpdateTLS` call on the local backend: the local filesystem
afterwards, the returned error, and whether `renewACMECertificate` was
invoked. -/
structure LocalPassResult where
  fs : Store
  ret : GoRet
  renewalAttempted : Bool
  deriving DecidableEq, Repr

/-- `LocalACMEStorage.UpdateTLS(domainGroup)`: take the first element as the
domain root (Go panics on an empty slice); call `DownloadCert` (its result and
error are immediately overwritten by the unconditional `renewACMECertificate`
call, whose error is never examined); then the common fallback/publish tail. -/
def LocalACMEStorage.UpdateTLS (home : String) (env : PassEnv) (fs : Store)
    (domainGroup : List String) : LocalPassResult :=
  match domainGroup with
  | [] => ⟨fs, .panicked, false⟩
  | domainRoot :: _ =>
    let _downloaded := LocalACMEStorage.DownloadCert home fs domainRoot
    let working := renewedPair env.renew
    let pub := certPublishStep home env.selfSigned env.diskWrite fs domainRoot
      working.1 working.2
    ⟨pub.1, pub.2, true⟩

/-- State touched by the S3 backend: the bucket contents and the local
filesystem. -/
structure S3State where
  store : Store
  localFs : Store
  deriving DecidableEq, Repr

/-- Result of one `UpdateTLS` call on the S3 backend. -/
structure S3PassResult where
  st : S3State
  ret : GoRet
  renewalAttempted : Bool
  deriving DecidableEq, Repr

/-- The working record after the Load step of the S3 `UpdateTLS`: the cached
pair when the download succeeds, nil slices otherwise (the error is only
logged). -/
def s3WorkingRecord (serviceName : String) (store : Store) (domainRoot : String) :
    Bytes × Bytes :=
  match S3ACMEStorage.DownloadCert serviceName store domainRoot with
  | .ok ck => ck
  | .error _ => (Bytes.nil, Bytes.nil)

/-- The renewal decision of the S3 `UpdateTLS`: `certExpiresSoon` on the
working certificate, with an expiry-check error forcing renewal. -/
def s3TimeToRenew (now : Int) (certData : Bytes) : Bool :=
  let expiry := certExpiresSoon now certData MaxRemainingDaysBeforeCertExpiry
  if expiry.2.isSome then true else expiry.1

/-- `S3ACMEStorage.UpdateTLS(domainGroup)`: download the cached record (errors
are logged and leave nil slices), decide via `certExpiresSoon` (an expiry-check
error forces renewal); if renewing, a renewal failure returns the renewal error
and a `SaveCert` failure returns the upload error; otherwise the common
fallback/publish tail runs on the working record. -/
def S3ACMEStorage.UpdateTLS (home serviceName : String) (now : Int) (env : PassEnv)
    (st : S3State) (domainGroup : List String) : S3PassResult :=
  match domainGroup with
  | [] => ⟨st, .panicked, false⟩
  | domainRoot :: _ =>
    let working := s3WorkingRecord serviceName st.store domainRoot
    let timeToRenewCert := s3TimeToRenew now working.1
    if timeToRenewCert then
      match env.renew with
      | .error e => ⟨st, .err ("error renewing ACME certificate: " ++ e), true⟩
      | .ok (c, k) =>
        match S3ACMEStorage.SaveCert serviceName env st.store domainRoot c k with
        | (store1, some e) => ⟨⟨store1, st.localFs⟩, .err ("error uploading cert to s3: " ++ e), true⟩
        | (store1, none) =>
          let pub := certPublishStep home env.selfSigned env.diskWrite st.localFs
            domainRoot c k
          ⟨⟨store1, pub.1⟩, pub.2, true⟩
    else
      let pub := certPublishStep home env.selfSigned env.diskWrite st.localFs
        domainRoot working.1 working.2
      ⟨⟨st.store, pub.1⟩, pub.2, false⟩

/-- `DomainUser`: contact email, optional ACME registration (abstracted to its
identity), and the ECDSA account key (`none` models a nil key; the Go field is
excluded from JSON with the tag `json:"-"`). -/
structure DomainUser where
  Email : String
  Registration : Option Nat
  key : Option Nat
  deriving DecidableEq, Repr

/-- `json.Unmarshal` of bytes into a `DomainUser` (the key field is never
populated from JSON). -/
def jsonUnmarshalUser : Bytes → Except GoError (String × Option Nat)
  | .json (.userDoc e r) => .ok (e, r)
  | _ => .error "error unmarshalling user"

/-- `json.Unmarshal` of bytes into a `registration.Resource`. -/
def jsonUnmarshalRegistration : Bytes → Except GoError Nat
  | .json (.regDoc r) => .ok r
  | _ => .error "error unmarshalling registration"

/-- `LocalACMEStorage.LoadRegistration()`: `os.ReadFile("registration.json")`
(a relative path, resolved against the working directory `cwd`), then
unmarshal. -/
def LocalACMEStorage.LoadRegistration (cwd : FPath) (fs : Store) : Except GoError Nat :=
  match Store.get fs (cwd ++ ["registration.json"]) with
  | none => .error "error reading registration file"
  | some data => jsonUnmarshalRegistration data

/-- `LocalACMEStorage.LoadUser(emailAddress)`: read `<email>.json` and
`<email>.pem` — both relative paths, resolved against the working directory —
decode the PEM PRIVATE KEY block, parse PKCS#8, require an ECDSA key, then
overwrite the registration from `LoadRegistration` when that succeeds (a
failure there is only logged). -/
def LocalACMEStorage.LoadUser (cwd : FPath) (fs : Store) (emailAddress : String) :
    Except GoError DomainUser :=
  match Store.get fs (cwd ++ [emailAddress ++ ".json"]) with
  | none => .error "error reading user file"
  | some userJson =>
    match jsonUnmarshalUser userJson with
    | .error e => .error e
    | .ok (email, reg0) =>
      match Store.get fs (cwd ++ [emailAddress ++ ".pem"]) with
      | none => .error "error reading private key file"
      | some pemBytes =>
        match pemBytes with
        | .pem (.privKey kp) _ =>
          match kp with
          | .badDer _ => .error "error parsing private key"
          | .otherKey _ => .error "key is not of type *ecdsa.PrivateKey"
          | .ecdsaKey kid =>
            match LocalACMEStorage.LoadRegistration cwd fs with
            | .error _ => .ok ⟨email, reg0, some kid⟩
            | .ok reg => .ok ⟨email, some reg, some kid⟩
        | _ => .error "failed to decode PEM block containing private key"

/-- `LocalACMEStorage.SaveUser(user)`: marshal the user (key excluded) and
write it to `loadmasterHomeDir/<email>.json` (an absolute path); then marshal
the key to PKCS#8 PEM (fails when the key is nil) and write it to the
working-directory-relative path `<email>.pem`.  File writes themselves succeed
in the map model. -/
def LocalACMEStorage.SaveUser (home : String) (cwd : FPath) (fs : Store) (user : DomainUser) :
    Store × Option GoError :=
  let userJson := Bytes.json (.userDoc user.Email user.Registration)
  let filename := loadmasterHomeDir home ++ [user.Email ++ ".json"]
  let fs1 := Store.put fs filename userJson
  match user.key with
  | none => (fs1, some "error marshalling private key")
  | some kid =>
    let privateKeyPem := Bytes.pem (.privKey (.ecdsaKey kid)) 0
    let keyFilename := cwd ++ [user.Email ++ ".pem"]
    (Store.put fs1 keyFilename privateKeyPem, none)

/-- `DomainsConfig`: the parsed domains.json. -/
structure DomainsConfig where
  Domains : List (List String)
  deriving DecidableEq, Repr

/-- One event served by the select loop in `main`: a write/create notification
on the domains file (carrying the outcome of the `config.LoadDomainsConfig`
call made after the settle delay) or the 24-hour timer tick. -/
inductive WatchEvent
  | fileChange (loadResult : Except GoError DomainsConfig)
  | timer
  deriving Repr

/-- One iteration of the select loop in `main` (src/main.go lines 255-293):
given the loop's `domains` variable, returns it afterwards together with the
list of domain groups passed to `storage.UpdateTLS` in this iteration.  In the
source, the reloaded configuration inside the change branch is bound with `:=`
to a new variable that shadows the outer `domains`, so the outer variable is
never reassigned; the timer branch iterates the outer variable. -/
def mainLoopStep (domains : DomainsConfig) (ev : WatchEvent) :
    DomainsConfig × List (List String) :=
  match ev with
  | .fileChange (.error _) => (domains, [])
  | .fileChange (.ok newDomains) => (domains, newDomains.Domains)
  | .timer => (domains, domains.Domains)

/-- Run the select loop over a finite event trace, collecting the groups
reconciled in each iteration. -/
def mainLoopRun (domains : DomainsConfig) : List WatchEvent → List (List (List String))
  | [] => []
  | ev :: evs =>
    let (domains1, groups) := mainLoopStep domains ev
    groups :: mainLoopRun domains1 evs

theorem Store.get_put_same (s : Store) (k : FPath) (v : Bytes) :
    Store.get (Store.put s k v) k = some v := by
  simp [Store.put, Store.get]

theorem Store.get_put_ne (s : Store) (k k' : FPath) (v : Bytes) (h : k ≠ k') :
    Store.get (Store.put s k v) k' = Store.get s k' := by
  simp [Store.put, Store.get, h]

theorem localCertPath_ne_keyPath (home domain : String) :
    localCertDir home ++ [domain, "cert.pem"] ≠ localCertDir home ++ [domain, "privkey.pem"] := by
  simp

theorem s3CertKey_ne_privKeyKey (serviceName domainRoot : String) :
    s3CertKey serviceName domainRoot ≠ s3PrivKeyKey serviceName domainRoot := by
  simp [s3CertKey, s3PrivKeyKey]

/-- C2: the expiry policy returns `(false, no error)` exactly when the parsed
certificate's remaining days exceed the window, `(true, no error)` when they
are at most the window, `(true, a decode error)` on every unparsable byte
string, and in particular `(true, a decode error)` on the empty record. -/
theorem certExpiresSoon_policy :
    (∀ now certData maxDays cert, parseCertificate certData = .ok cert →
      (maxDays < remainingDays now cert.notAfter →
        certExpiresSoon now certData maxDays = (false, none)) ∧
      (remainingDays now cert.notAfter ≤ maxDays →
        certExpiresSoon now certData maxDays = (true, none)))
    ∧ (∀ now certData maxDays e, parseCertificate certData = .error e →
        certExpiresSoon now certData maxDays =
          (true, some ("error parsing certificate: " ++ e)))
    ∧ (∀ now maxDays, ∃ e, certExpiresSoon now Bytes.nil maxDays = (true, some e)) := by
  refine ⟨?_, ?_, ?_⟩
  · intro now certData maxDays cert h
    refine ⟨fun hgt => ?_, fun hle => ?_⟩
    · simp [certExpiresSoon, h, not_le.mpr hgt]
    · simp [certExpiresSoon, h, hle]
  · intro now certData maxDays e h
    simp [certExpiresSoon, h]
  · intro now maxDays
    exact ⟨_, rfl⟩

/-- Witness for `certExpiresSoon_policy` at concrete inputs: 100 remaining
days against a 60-day window keeps the certificate, 10 days renews, and a
non-PEM byte string renews with a decode error. -/
theorem certExpiresSoon_policy_witness :
    certExpiresSoon 0 (Bytes.pem (.cert (some 2400)) 0) 60 = (false, none) ∧
    certExpiresSoon 0 (Bytes.pem (.cert (some 240)) 0) 60 = (true, none) ∧
    certExpiresSoon 0 (Bytes.blob [1]) 60 =
      (true, some ("error parsing certificate: " ++
        "failed to decode PEM certificate: cert bytes == nil")) := by
  refine ⟨?_, ?_, ?_⟩
  · exact (certExpiresSoon_policy.1 0 (Bytes.pem (.cert (some 2400)) 0) 60 ⟨2400⟩ rfl).1
      (by decide)
  · exact (certExpiresSoon_policy.1 0 (Bytes.pem (.cert (some 240)) 0) 60 ⟨240⟩ rfl).2
      (by decide)
  · exact certExpiresSoon_policy.2.1 0 (Bytes.blob [1]) 60 _ rfl

/-- C8 (code bug): with the startup configuration holding one group, a change
event that successfully reloads a two-group configuration reconciles both
groups in its own pass, but the following timer pass reconciles only the
startup group — the reload never reaches the loop's `domains` variable. -/
theorem mainLoop_timer_ignores_reload :
    mainLoopRun ⟨[["a.com"]]⟩
        [WatchEvent.fileChange (.ok ⟨[["a.com"], ["b.com"]]⟩), WatchEvent.timer] =
      [[["a.com"], ["b.com"]], [["a.com"]]] ∧
    ([["a.com"]] : List (List String)) ≠ [["a.com"], ["b.com"]] := by
  exact ⟨rfl, by decide⟩

/-- C6: with both uploads succeeding, `SaveCert` followed by `DownloadCert`
for the same domain root returns exactly the saved certificate and key
bytes. -/
theorem s3_saveCert_downloadCert_roundtrip (serviceName : String) (env : PassEnv)
    (store : Store) (domainRoot : String) (cert privateKey : Bytes)
    (hc : env.putCert = none) (hk : env.putKey = none) :
    (S3ACMEStorage.SaveCert serviceName env store domainRoot cert privateKey).2 = none ∧
    S3ACMEStorage.DownloadCert serviceName
        (S3ACMEStorage.SaveCert serviceName env store domainRoot cert privateKey).1
        domainRoot = .ok (cert, privateKey) := by
  have hne := s3CertKey_ne_privKeyKey serviceName domainRoot
  constructor
  · simp [S3ACMEStorage.SaveCert, hc, hk]
  · simp only [S3ACMEStorage.SaveCert, hc, hk, S3ACMEStorage.DownloadCert,
      Store.get_put_ne _ _ _ _ (Ne.symm hne), Store.get_put_same]

/-- Witness for `s3_saveCert_downloadCert_roundtrip` at a concrete store. -/
theorem s3_saveCert_downloadCert_roundtrip_witness :
    (S3ACMEStorage.SaveCert "svc"
        ⟨.error "", .error "", none, none, none⟩ [] "example.com"
        (Bytes.blob [1]) (Bytes.blob [2])).2 = none ∧
    S3ACMEStorage.DownloadCert "svc"
        (S3ACMEStorage.SaveCert "svc"
          ⟨.error "", .error "", none, none, none⟩ [] "example.com"
          (Bytes.blob [1]) (Bytes.blob [2])).1 "example.com" =
      .ok (Bytes.blob [1], Bytes.blob [2]) :=
  s3_saveCert_downloadCert_roundtrip "svc" _ [] "example.com" _ _ rfl rfl

/-- C7 (amended): the local `DownloadCert` errors on a missing or zero-length
artifact, so success yields two non-empty slices; the S3 `DownloadCert` errors
when the certificate object is missing, but a zero-length stored object is
returned as an empty slice without error. -/
theorem downloadCert_notfound_policy :
    (∀ home fs domainRoot c k,
      LocalACMEStorage.DownloadCert home fs domainRoot = .ok (c, k) →
      c.isEmpty = false ∧ k.isEmpty = false)
    ∧ (∀ serviceName store domainRoot,
        Store.get store (s3CertKey serviceName domainRoot) = none →
        S3ACMEStorage.DownloadCert serviceName store domainRoot =
          .error "error while downloading certificate file from S3")
    ∧ (∀ serviceName store domainRoot k,
        Store.get store (s3CertKey serviceName domainRoot) = some Bytes.nil →
        Store.get store (s3PrivKeyKey serviceName domainRoot) = some k →
        S3ACMEStorage.DownloadCert serviceName store domainRoot = .ok (Bytes.nil, k)) := by
  refine ⟨?_, ?_, ?_⟩
  · intro home fs domainRoot c k h
    simp only [LocalACMEStorage.DownloadCert] at h
    split at h
    · exact absurd h (by simp)
    · split at h
      · exact absurd h (by simp)
      · split at h
        · exact absurd h (by simp)
        · split at h
          · exact absurd h (by simp)
          · simp only [Except.ok.injEq, Prod.mk.injEq] at h
            obtain ⟨rfl, rfl⟩ := h
            simp_all
  · intro serviceName store domainRoot h
    simp [S3ACMEStorage.DownloadCert, h]
  · intro serviceName store domainRoot k h1 h2
    simp [S3ACMEStorage.DownloadCert, h1, h2]

/-- Witness for `downloadCert_notfound_policy`: a store holding a cert and key
locally, a store missing the cert object, and a store with a zero-length cert
object. -/
theorem downloadCert_notfound_policy_witness :
    ((Bytes.blob [1]).isEmpty = false ∧ (Bytes.blob [2]).isEmpty = false) ∧
    S3ACMEStorage.DownloadCert "svc" [] "d" =
      .error "error while downloading certificate file from S3" ∧
    S3ACMEStorage.DownloadCert "svc"
        [(s3CertKey "svc" "d", Bytes.nil), (s3PrivKeyKey "svc" "d", Bytes.blob [3])] "d" =
      .ok (Bytes.nil, Bytes.blob [3]) := by
  refine ⟨?_, ?_, ?_⟩
  · exact downloadCert_notfound_policy.1 "h"
      [(localCertDir "h" ++ ["d", "cert.pem"], Bytes.blob [1]),
       (localCertDir "h" ++ ["d", "privkey.pem"], Bytes.blob [2])] "d" _ _ rfl
  · exact downloadCert_notfound_policy.2.1 "svc" [] "d" rfl
  · exact downloadCert_notfound_policy.2.2 "svc" _ "d" _ rfl rfl

/-- C7 counterexample: the S3 `DownloadCert` succeeds on a store whose
certificate object is zero-length, returning an empty certificate slice —
contradicting the claim that success implies both slices are non-empty. -/
theorem s3_downloadCert_zeroLength_counterexample :
    S3ACMEStorage.DownloadCert "svc"
        [(s3CertKey "svc" "example.com", Bytes.nil),
         (s3PrivKeyKey "svc" "example.com", Bytes.blob [1])] "example.com" =
      .ok (Bytes.nil, Bytes.blob [1]) ∧
    Bytes.nil.isEmpty = true := by
  exact ⟨rfl, rfl⟩

theorem certPublishStep_ret_ne_panicked (home : String) (sS : Except GoError (Bytes × Bytes))
    (dW : Option GoError) (fs : Store) (domainRoot : String) (c k : Bytes) :
    (certPublishStep home sS dW fs domainRoot c k).2 ≠ GoRet.panicked := by
  simp only [certPublishStep, writeCertToFilesToDisk]
  split
  · simp
  · split
    · simp
    · simp

/-- C9: on both storage variants, `UpdateTLS` of a non-empty domain group never
hits the out-of-range access (the result is never the panic outcome), while on
the empty group the `domainGroup[0]` access panics. -/
theorem updateTLS_domainRoot_index_safety :
    (∀ home env fs, (LocalACMEStorage.UpdateTLS home env fs []).ret = .panicked)
    ∧ (∀ home env fs domainGroup, domainGroup ≠ [] →
        (LocalACMEStorage.UpdateTLS home env fs domainGroup).ret ≠ .panicked)
    ∧ (∀ home serviceName now env st,
        (S3ACMEStorage.UpdateTLS home serviceName now env st []).ret = .panicked)
    ∧ (∀ home serviceName now env st domainGroup, domainGroup ≠ [] →
        (S3ACMEStorage.UpdateTLS home serviceName now env st domainGroup).ret ≠ .panicked) := by
  refine ⟨fun home env fs => rfl, ?_, fun home serviceName now env st => rfl, ?_⟩
  · intro home env fs domainGroup hne
    match domainGroup, hne with
    | domainRoot :: rest, _ =>
      exact certPublishStep_ret_ne_panicked home env.selfSigned env.diskWrite fs domainRoot _ _
  · intro home serviceName now env st domainGroup hne
    match domainGroup, hne with
    | domainRoot :: rest, _ =>
      simp only [S3ACMEStorage.UpdateTLS]
      split
      · rcases henv : env.renew with e | ⟨c, k⟩
        · simp [henv]
        · simp only [henv]
          rcases hsave : S3ACMEStorage.SaveCert serviceName env st.store domainRoot c k with
            ⟨store1, se⟩
          rcases se with _ | e
          · simp only [hsave]
            exact certPublishStep_ret_ne_panicked home env.selfSigned env.diskWrite
              st.localFs domainRoot _ _
          · simp [hsave]
      · exact certPublishStep_ret_ne_panicked home env.selfSigned env.diskWrite
          st.localFs domainRoot _ _

/-- Witness for `updateTLS_domainRoot_index_safety` on the one-element group. -/
theorem updateTLS_domainRoot_index_safety_witness :
    (LocalACMEStorage.UpdateTLS "h" ⟨.error "", .error "", none, none, none⟩ []
        ["example.com"]).ret ≠ .panicked ∧
    (S3ACMEStorage.UpdateTLS "h" "svc" 0 ⟨.error "", .error "", none, none, none⟩ ⟨[], []⟩
        ["example.com"]).ret ≠ .panicked := by
  exact ⟨updateTLS_domainRoot_index_safety.2.1 "h" _ [] ["example.com"] (by decide),
    updateTLS_domainRoot_index_safety.2.2.2 "h" "svc" 0 _ ⟨[], []⟩ ["example.com"] (by decide)⟩

theorem get_write_pair (fs : Store) (cp kp : FPath) (c k : Bytes) (hne : cp ≠ kp) :
    Store.get (Store.put (Store.put fs cp c) kp k) cp = some c ∧
    Store.get (Store.put (Store.put fs cp c) kp k) kp = some k :=
  ⟨by rw [Store.get_put_ne _ _ _ _ (Ne.symm hne), Store.get_put_same],
   by rw [Store.get_put_same]⟩

/-- Structure of a successful publish: the return is `ok` only when the disk
write succeeded, and the resulting filesystem is the cleaned directory with
the working pair written — the input pair when it was structurally valid, the
self-signed pair otherwise. -/
theorem certPublishStep_ok_structure (home : String) (sS : Except GoError (Bytes × Bytes))
    (dW : Option GoError) (fs : Store) (domainRoot : String) (c k : Bytes) :
    (certPublishStep home sS dW fs domainRoot c k).2 = .ok →
    dW = none ∧ ∃ cw kw,
      (certPublishStep home sS dW fs domainRoot c k).1 =
        Store.put (Store.put (removeExisting home fs domainRoot)
            (localCertDir home ++ [domainRoot, "cert.pem"]) cw)
          (localCertDir home ++ [domainRoot, "privkey.pem"]) kw ∧
      (((c.isEmpty || k.isEmpty) = false ∧ cw = c ∧ kw = k) ∨
       ((c.isEmpty || k.isEmpty) = true ∧ sS = .ok (cw, kw))) := by
  intro hok
  rcases hif : (c.isEmpty || k.isEmpty) with _ | _
  · rcases hw : dW with _ | e
    · refine ⟨rfl, c, k, ?_, Or.inl ⟨rfl, rfl, rfl⟩⟩
      simp [certPublishStep, writeCertToFilesToDisk, GetLocalCertFilenames, hif, hw]
    · exact absurd hok (by simp [certPublishStep, writeCertToFilesToDisk, hif, hw])
  · rcases hs : sS with e | ⟨sc, sk⟩
    · exact absurd hok (by simp [certPublishStep, hif, hs])
    · rcases hw : dW with _ | e
      · refine ⟨rfl, sc, sk, ?_, Or.inr ⟨rfl, rfl⟩⟩
        simp [certPublishStep, writeCertToFilesToDisk, GetLocalCertFilenames, hif, hs, hw]
      · exact absurd hok (by simp [certPublishStep, writeCertToFilesToDisk, hif, hs, hw])

theorem certPublishStep_ok_files (home : String) (sS : Except GoError (Bytes × Bytes))
    (dW : Option GoError) (fs : Store) (domainRoot : String) (c k : Bytes)
    (hss : ∀ sc sk, sS = .ok (sc, sk) → sc.isEmpty = false ∧ sk.isEmpty = false)
    (hok : (certPublishStep home sS dW fs domainRoot c k).2 = .ok) :
    ∃ cw kw,
      Store.get (certPublishStep home sS dW fs domainRoot c k).1
          (localCertDir home ++ [domainRoot, "cert.pem"]) = some cw ∧ cw.isEmpty = false ∧
      Store.get (certPublishStep home sS dW fs domainRoot c k).1
          (localCertDir home ++ [domainRoot, "privkey.pem"]) = some kw ∧ kw.isEmpty = false := by
  obtain ⟨hw, cw, kw, hfs, hcase⟩ := certPublishStep_ok_structure home sS dW fs domainRoot c k hok
  have hpair := get_write_pair (removeExisting home fs domainRoot)
    (localCertDir home ++ [domainRoot, "cert.pem"])
    (localCertDir home ++ [domainRoot, "privkey.pem"]) cw kw
    (localCertPath_ne_keyPath home domainRoot)
  have hcg : Store.get (certPublishStep home sS dW fs domainRoot c k).1
      (localCertDir home ++ [domainRoot, "cert.pem"]) = some cw := by rw [hfs]; exact hpair.1
  have hkg : Store.get (certPublishStep home sS dW fs domainRoot c k).1
      (localCertDir home ++ [domainRoot, "privkey.pem"]) = some kw := by rw [hfs]; exact hpair.2
  rcases hcase with ⟨hne, rfl, rfl⟩ | ⟨_, hsok⟩
  · rcases Bool.or_eq_false_iff.mp hne with ⟨h1, h2⟩
    exact ⟨cw, kw, hcg, h1, hkg, h2⟩
  · obtain ⟨h1, h2⟩ := hss cw kw hsok
    exact ⟨cw, kw, hcg, h1, hkg, h2⟩

/-- C1: if `UpdateTLS` (either storage variant) returns without error and the
self-signed generator yields non-empty slices on success, the local
certificate directory for the group's domain root holds a non-empty
`cert.pem` and a non-empty `privkey.pem`. -/
theorem updateTLS_ok_nonempty_files :
    (∀ home env fs domainRoot rest,
      (∀ sc sk, env.selfSigned = .ok (sc, sk) → sc.isEmpty = false ∧ sk.isEmpty = false) →
      (LocalACMEStorage.UpdateTLS home env fs (domainRoot :: rest)).ret = .ok →
      ∃ cw kw,
        Store.get (LocalACMEStorage.UpdateTLS home env fs (domainRoot :: rest)).fs
            (localCertDir home ++ [domainRoot, "cert.pem"]) = some cw ∧ cw.isEmpty = false ∧
        Store.get (LocalACMEStorage.UpdateTLS home env fs (domainRoot :: rest)).fs
            (localCertDir home ++ [domainRoot, "privkey.pem"]) = some kw ∧ kw.isEmpty = false)
    ∧ (∀ home serviceName now env st domainRoot rest,
      (∀ sc sk, env.selfSigned = .ok (sc, sk) → sc.isEmpty = false ∧ sk.isEmpty = false) →
      (S3ACMEStorage.UpdateTLS home serviceName now env st (domainRoot :: rest)).ret = .ok →
      ∃ cw kw,
        Store.get
            (S3ACMEStorage.UpdateTLS home serviceName now env st (domainRoot :: rest)).st.localFs
            (localCertDir home ++ [domainRoot, "cert.pem"]) = some cw ∧ cw.isEmpty = false ∧
        Store.get
            (S3ACMEStorage.UpdateTLS home serviceName now env st (domainRoot :: rest)).st.localFs
            (localCertDir home ++ [domainRoot, "privkey.pem"]) = some kw ∧ kw.isEmpty = false) := by
  constructor
  · intro home env fs domainRoot rest hss hok
    exact certPublishStep_ok_files home env.selfSigned env.diskWrite fs domainRoot _ _ hss hok
  · intro home serviceName now env st domainRoot rest hss hok
    rcases htr : s3TimeToRenew now (s3WorkingRecord serviceName st.store domainRoot).1 with _ | _
    · have hred : S3ACMEStorage.UpdateTLS home serviceName now env st (domainRoot :: rest) =
          ⟨⟨st.store, (certPublishStep home env.selfSigned env.diskWrite st.localFs domainRoot
              (s3WorkingRecord serviceName st.store domainRoot).1
              (s3WorkingRecord serviceName st.store domainRoot).2).1⟩,
           (certPublishStep home env.selfSigned env.diskWrite st.localFs domainRoot
              (s3WorkingRecord serviceName st.store domainRoot).1
              (s3WorkingRecord serviceName st.store domainRoot).2).2, false⟩ := by
        simp [S3ACMEStorage.UpdateTLS, htr]
      rw [hred] at hok ⊢
      exact certPublishStep_ok_files home env.selfSigned env.diskWrite st.localFs
        domainRoot _ _ hss hok
    · rcases henv : env.renew with e | ⟨c, k⟩
      · exact absurd hok (by simp [S3ACMEStorage.UpdateTLS, htr, henv])
      · rcases hsave : S3ACMEStorage.SaveCert serviceName env st.store domainRoot c k with
          ⟨store1, se⟩
        rcases se with _ | e
        · have hred : S3ACMEStorage.UpdateTLS home serviceName now env st (domainRoot :: rest) =
              ⟨⟨store1,
                 (certPublishStep home env.selfSigned env.diskWrite st.localFs domainRoot c k).1⟩,
               (certPublishStep home env.selfSigned env.diskWrite st.localFs domainRoot c k).2,
               true⟩ := by
            simp [S3ACMEStorage.UpdateTLS, htr, henv, hsave]
          rw [hred] at hok ⊢
          exact certPublishStep_ok_files home env.selfSigned env.diskWrite st.localFs
            domainRoot c k hss hok
        · exact absurd hok (by simp [S3ACMEStorage.UpdateTLS, htr, henv, hsave])

/-- Witness for `updateTLS_ok_nonempty_files`: a successful local pass whose
renewal returns a non-empty pair, and a successful S3 pass serving a fresh
cached certificate. -/
theorem updateTLS_ok_nonempty_files_witness :
    (∃ cw kw,
      Store.get (LocalACMEStorage.UpdateTLS "h"
          ⟨.ok (Bytes.blob [1], Bytes.blob [2]), .ok (Bytes.blob [8], Bytes.blob [9]),
           none, none, none⟩ [] ["example.com"]).fs
        (localCertDir "h" ++ ["example.com", "cert.pem"]) = some cw ∧ cw.isEmpty = false ∧
      Store.get (LocalACMEStorage.UpdateTLS "h"
          ⟨.ok (Bytes.blob [1], Bytes.blob [2]), .ok (Bytes.blob [8], Bytes.blob [9]),
           none, none, none⟩ [] ["example.com"]).fs
        (localCertDir "h" ++ ["example.com", "privkey.pem"]) = some kw ∧ kw.isEmpty = false) ∧
    (∃ cw kw,
      Store.get (S3ACMEStorage.UpdateTLS "h" "svc" 0
          ⟨.error "issuer down", .error "", none, none, none⟩
          ⟨[(s3CertKey "svc" "example.com", Bytes.pem (.cert (some 24000)) 0),
            (s3PrivKeyKey "svc" "example.com", Bytes.blob [3])], []⟩ ["example.com"]).st.localFs
        (localCertDir "h" ++ ["example.com", "cert.pem"]) = some cw ∧ cw.isEmpty = false ∧
      Store.get (S3ACMEStorage.UpdateTLS "h" "svc" 0
          ⟨.error "issuer down", .error "", none, none, none⟩
          ⟨[(s3CertKey "svc" "example.com", Bytes.pem (.cert (some 24000)) 0),
            (s3PrivKeyKey "svc" "example.com", Bytes.blob [3])], []⟩ ["example.com"]).st.localFs
        (localCertDir "h" ++ ["example.com", "privkey.pem"]) = some kw ∧ kw.isEmpty = false) := by
  constructor
  · exact updateTLS_ok_nonempty_files.1 "h" _ [] "example.com" []
      (by intro sc sk hss; cases hss; exact ⟨rfl, rfl⟩) rfl
  · exact updateTLS_ok_nonempty_files.2 "h" "svc" 0 _ _ "example.com" []
      (by intro sc sk hss; simp at hss) rfl

/-- C3 counterexample: with a cached-but-stale record present (one remaining
day against the 60-day window) and a failing renewal, the S3 `UpdateTLS`
returns the renewal error and leaves the local filesystem untouched — it
aborts instead of continuing through fallback and publish. -/
theorem s3_renewFailure_aborts_counterexample :
    (S3ACMEStorage.UpdateTLS "h" "svc" 0 ⟨.error "boom", .ok (Bytes.blob [8], Bytes.blob [9]),
        none, none, none⟩
      ⟨[(s3CertKey "svc" "example.com", Bytes.pem (.cert (some 24)) 0),
        (s3PrivKeyKey "svc" "example.com", Bytes.blob [3])], []⟩ ["example.com"]).ret =
      .err "error renewing ACME certificate: boom" ∧
    (S3ACMEStorage.UpdateTLS "h" "svc" 0 ⟨.error "boom", .ok (Bytes.blob [8], Bytes.blob [9]),
        none, none, none⟩
      ⟨[(s3CertKey "svc" "example.com", Bytes.pem (.cert (some 24)) 0),
        (s3PrivKeyKey "svc" "example.com", Bytes.blob [3])], []⟩ ["example.com"]).st.localFs =
      [] :=
  ⟨rfl, rfl⟩

/-- C3 (amended): when renewal fails, the local variant does not abort — it
discards the record loaded in the Load step, continues with nil slices into
the fallback and publish steps — while the S3 variant aborts `UpdateTLS`,
returning the renewal error with no fallback or publish. -/
theorem renewFailure_step_behavior :
    (∀ home env fs domainRoot rest e, env.renew = .error e →
      LocalACMEStorage.UpdateTLS home env fs (domainRoot :: rest) =
        ⟨(certPublishStep home env.selfSigned env.diskWrite fs domainRoot Bytes.nil Bytes.nil).1,
         (certPublishStep home env.selfSigned env.diskWrite fs domainRoot Bytes.nil Bytes.nil).2,
         true⟩)
    ∧ (∀ home serviceName now env st domainRoot rest e, env.renew = .error e →
        s3TimeToRenew now (s3WorkingRecord serviceName st.store domainRoot).1 = true →
        S3ACMEStorage.UpdateTLS home serviceName now env st (domainRoot :: rest) =
          ⟨st, .err ("error renewing ACME certificate: " ++ e), true⟩) := by
  constructor
  · intro home env fs domainRoot rest e henv
    simp [LocalACMEStorage.UpdateTLS, renewedPair, henv]
  · intro home serviceName now env st domainRoot rest e henv htr
    simp [S3ACMEStorage.UpdateTLS, htr, henv]

/-- Witness for `renewFailure_step_behavior`: a failing renewal on the local
variant publishes the self-signed pair, and on the S3 variant (stale cached
record) returns the renewal error. -/
theorem renewFailure_step_behavior_witness :
    LocalACMEStorage.UpdateTLS "h" ⟨.error "boom", .ok (Bytes.blob [8], Bytes.blob [9]),
        none, none, none⟩ [] ["example.com"] =
      ⟨(certPublishStep "h" (.ok (Bytes.blob [8], Bytes.blob [9])) none [] "example.com"
          Bytes.nil Bytes.nil).1,
       (certPublishStep "h" (.ok (Bytes.blob [8], Bytes.blob [9])) none [] "example.com"
          Bytes.nil Bytes.nil).2, true⟩ ∧
    S3ACMEStorage.UpdateTLS "h" "svc" 0 ⟨.error "boom", .ok (Bytes.blob [8], Bytes.blob [9]),
        none, none, none⟩ ⟨[], []⟩ ["example.com"] =
      ⟨⟨[], []⟩, .err ("error renewing ACME certificate: " ++ "boom"), true⟩ := by
  constructor
  · exact renewFailure_step_behavior.1 "h" _ [] "example.com" [] "boom" rfl
  · exact renewFailure_step_behavior.2 "h" "svc" 0 _ ⟨[], []⟩ "example.com" [] "boom" rfl rfl

theorem s3UpdateTLS_renewError (home serviceName : String) (now : Int) (env : PassEnv)
    (st : S3State) (domainRoot : String) (rest : List String) (e : GoError)
    (henv : env.renew = .error e)
    (htr : s3TimeToRenew now (s3WorkingRecord serviceName st.store domainRoot).1 = true) :
    S3ACMEStorage.UpdateTLS home serviceName now env st (domainRoot :: rest) =
      ⟨st, .err ("error renewing ACME certificate: " ++ e), true⟩ := by
  simp [S3ACMEStorage.UpdateTLS, htr, henv]

/-- C4 counterexample: with no cached record in the blob store and a failing
renewal, the S3 `UpdateTLS` does not fall back to a self-signed certificate —
it returns the renewal error and publishes no local files. -/
theorem s3_fallback_guarantee_counterexample :
    (S3ACMEStorage.UpdateTLS "h" "svc" 0 ⟨.error "down", .ok (Bytes.blob [8], Bytes.blob [9]),
        none, none, none⟩ ⟨[], []⟩ ["example.com"]).ret =
      .err "error renewing ACME certificate: down" ∧
    (S3ACMEStorage.UpdateTLS "h" "svc" 0 ⟨.error "down", .ok (Bytes.blob [8], Bytes.blob [9]),
        none, none, none⟩ ⟨[], []⟩ ["example.com"]).st.localFs = [] :=
  ⟨rfl, rfl⟩

/-- C4 (amended): the fallback guarantee holds only on the local variant —
when renewal fails, the published files are exactly the self-signed pair and
the only possible error is the local disk write failing — while the S3 variant
with no cached record returns the renewal error and publishes nothing. -/
theorem fallback_guarantee_behavior :
    (∀ home env fs domainRoot rest e sc sk,
      env.renew = .error e → env.selfSigned = .ok (sc, sk) →
      (env.diskWrite = none →
        (LocalACMEStorage.UpdateTLS home env fs (domainRoot :: rest)).ret = .ok ∧
        Store.get (LocalACMEStorage.UpdateTLS home env fs (domainRoot :: rest)).fs
          (localCertDir home ++ [domainRoot, "cert.pem"]) = some sc ∧
        Store.get (LocalACMEStorage.UpdateTLS home env fs (domainRoot :: rest)).fs
          (localCertDir home ++ [domainRoot, "privkey.pem"]) = some sk) ∧
      (∀ we, env.diskWrite = some we →
        (LocalACMEStorage.UpdateTLS home env fs (domainRoot :: rest)).ret =
          .err ("error writing certificate to disk: " ++
            ("failed to write certificate to disk: " ++ we))))
    ∧ (∀ home serviceName now env st domainRoot rest e,
        env.renew = .error e →
        Store.get st.store (s3CertKey serviceName domainRoot) = none →
        S3ACMEStorage.UpdateTLS home serviceName now env st (domainRoot :: rest) =
          ⟨st, .err ("error renewing ACME certificate: " ++ e), true⟩) := by
  constructor
  · intro home env fs domainRoot rest e sc sk henv hss
    constructor
    · intro hw
      have hred : LocalACMEStorage.UpdateTLS home env fs (domainRoot :: rest) =
          ⟨Store.put (Store.put (removeExisting home fs domainRoot)
              (localCertDir home ++ [domainRoot, "cert.pem"]) sc)
            (localCertDir home ++ [domainRoot, "privkey.pem"]) sk, .ok, true⟩ := by
        simp [LocalACMEStorage.UpdateTLS, renewedPair, henv, certPublishStep,
          writeCertToFilesToDisk, GetLocalCertFilenames, Bytes.isEmpty, hss, hw]
      rw [hred]
      exact ⟨rfl,
        (get_write_pair _ _ _ sc sk (localCertPath_ne_keyPath home domainRoot)).1,
        (get_write_pair _ _ _ sc sk (localCertPath_ne_keyPath home domainRoot)).2⟩
    · intro we hw
      simp [LocalACMEStorage.UpdateTLS, renewedPair, henv, certPublishStep,
        writeCertToFilesToDisk, Bytes.isEmpty, hss, hw]
  · intro home serviceName now env st domainRoot rest e henv hnc
    have hwr : s3WorkingRecord serviceName st.store domainRoot = (Bytes.nil, Bytes.nil) := by
      simp [s3WorkingRecord, S3ACMEStorage.DownloadCert, hnc]
    exact s3UpdateTLS_renewError home serviceName now env st domainRoot rest e henv
      (by rw [hwr]; rfl)

/-- Witness for `fallback_guarantee_behavior`: concrete failing-renewal passes
on both variants, with a working disk and with a failing disk. -/
theorem fallback_guarantee_behavior_witness :
    ((LocalACMEStorage.UpdateTLS "h" ⟨.error "down", .ok (Bytes.blob [8], Bytes.blob [9]),
        none, none, none⟩ [] ["example.com"]).ret = .ok ∧
      Store.get (LocalACMEStorage.UpdateTLS "h"
          ⟨.error "down", .ok (Bytes.blob [8], Bytes.blob [9]), none, none, none⟩
          [] ["example.com"]).fs
        (localCertDir "h" ++ ["example.com", "cert.pem"]) = some (Bytes.blob [8]) ∧
      Store.get (LocalACMEStorage.UpdateTLS "h"
          ⟨.error "down", .ok (Bytes.blob [8], Bytes.blob [9]), none, none, none⟩
          [] ["example.com"]).fs
        (localCertDir "h" ++ ["example.com", "privkey.pem"]) = some (Bytes.blob [9])) ∧
    (LocalACMEStorage.UpdateTLS "h" ⟨.error "down", .ok (Bytes.blob [8], Bytes.blob [9]),
        some "denied", none, none⟩ [] ["example.com"]).ret =
      .err ("error writing certificate to disk: " ++
        ("failed to write certificate to disk: " ++ "denied")) ∧
    S3ACMEStorage.UpdateTLS "h" "svc" 0 ⟨.error "down2", .ok (Bytes.blob [8], Bytes.blob [9]),
        none, none, none⟩ ⟨[], []⟩ ["example.com"] =
      ⟨⟨[], []⟩, .err ("error renewing ACME certificate: " ++ "down2"), true⟩ := by
  refine ⟨?_, ?_, ?_⟩
  · exact (fallback_guarantee_behavior.1 "h" _ [] "example.com" [] "down"
      (Bytes.blob [8]) (Bytes.blob [9]) rfl rfl).1 rfl
  · exact (fallback_guarantee_behavior.1 "h" _ [] "example.com" [] "down"
      (Bytes.blob [8]) (Bytes.blob [9]) rfl rfl).2 "denied" rfl
  · exact fallback_guarantee_behavior.2 "h" "svc" 0 _ ⟨[], []⟩ "example.com" [] "down2" rfl rfl

theorem parseCertificate_ok_nonempty (b : Bytes) (cert : CertInfo)
    (h : parseCertificate b = .ok cert) : b.isEmpty = false := by
  cases b
  case nil => simp [parseCertificate] at h
  all_goals rfl

/-- C5 counterexample: the local variant re-runs the ACME renewal on the
second call even though the cached certificate is fresh (1000 remaining days
against the 60-day window), and the second call's published certificate is the
newly issued bytes, not the first call's — the local files are not
byte-identical across the two calls. -/
theorem local_idempotence_counterexample :
    let fs0 : Store := [(localCertDir "h" ++ ["example.com", "cert.pem"],
        Bytes.pem (.cert (some 24000)) 0),
      (localCertDir "h" ++ ["example.com", "privkey.pem"], Bytes.blob [1])]
    let r1 := LocalACMEStorage.UpdateTLS "h" ⟨.ok (Bytes.blob [2], Bytes.blob [3]),
        .ok (Bytes.blob [8], Bytes.blob [9]), none, none, none⟩ fs0 ["example.com"]
    let r2 := LocalACMEStorage.UpdateTLS "h" ⟨.ok (Bytes.blob [4], Bytes.blob [5]),
        .ok (Bytes.blob [8], Bytes.blob [9]), none, none, none⟩ r1.fs ["example.com"]
    r2.renewalAttempted = true ∧
    Store.get r1.fs (localCertDir "h" ++ ["example.com", "cert.pem"]) =
      some (Bytes.blob [2]) ∧
    Store.get r2.fs (localCertDir "h" ++ ["example.com", "cert.pem"]) =
      some (Bytes.blob [4]) ∧
    some (Bytes.blob [2]) ≠ some (Bytes.blob [4]) := by
  exact ⟨rfl, rfl, rfl, by decide⟩

/-- C5 (amended): reconciling a fresh group twice is idempotent on the S3
variant — no renewal is triggered on either call, the blob store is untouched,
and both calls publish the identical cached bytes — while the local variant
invokes the ACME renewal unconditionally on every call. -/
theorem reconcile_idempotence_behavior :
    (∀ home env fs domainRoot rest,
      (LocalACMEStorage.UpdateTLS home env fs (domainRoot :: rest)).renewalAttempted = true)
    ∧ (∀ home serviceName now env1 env2 st domainRoot rest certB keyB cert,
      Store.get st.store (s3CertKey serviceName domainRoot) = some certB →
      Store.get st.store (s3PrivKeyKey serviceName domainRoot) = some keyB →
      parseCertificate certB = .ok cert →
      MaxRemainingDaysBeforeCertExpiry < remainingDays now cert.notAfter →
      keyB.isEmpty = false →
      env1.diskWrite = none → env2.diskWrite = none →
      (S3ACMEStorage.UpdateTLS home serviceName now env1 st
          (domainRoot :: rest)).renewalAttempted = false ∧
      (S3ACMEStorage.UpdateTLS home serviceName now env1 st (domainRoot :: rest)).ret = .ok ∧
      (S3ACMEStorage.UpdateTLS home serviceName now env1 st
          (domainRoot :: rest)).st.store = st.store ∧
      (S3ACMEStorage.UpdateTLS home serviceName now env2
          (S3ACMEStorage.UpdateTLS home serviceName now env1 st (domainRoot :: rest)).st
          (domainRoot :: rest)).renewalAttempted = false ∧
      (S3ACMEStorage.UpdateTLS home serviceName now env2
          (S3ACMEStorage.UpdateTLS home serviceName now env1 st (domainRoot :: rest)).st
          (domainRoot :: rest)).ret = .ok ∧
      Store.get (S3ACMEStorage.UpdateTLS home serviceName now env1 st
          (domainRoot :: rest)).st.localFs
        (localCertDir home ++ [domainRoot, "cert.pem"]) = some certB ∧
      Store.get (S3ACMEStorage.UpdateTLS home serviceName now env1 st
          (domainRoot :: rest)).st.localFs
        (localCertDir home ++ [domainRoot, "privkey.pem"]) = some keyB ∧
      Store.get (S3ACMEStorage.UpdateTLS home serviceName now env2
          (S3ACMEStorage.UpdateTLS home serviceName now env1 st (domainRoot :: rest)).st
          (domainRoot :: rest)).st.localFs
        (localCertDir home ++ [domainRoot, "cert.pem"]) = some certB ∧
      Store.get (S3ACMEStorage.UpdateTLS home serviceName now env2
          (S3ACMEStorage.UpdateTLS home serviceName now env1 st (domainRoot :: rest)).st
          (domainRoot :: rest)).st.localFs
        (localCertDir home ++ [domainRoot, "privkey.pem"]) = some keyB) := by
  constructor
  · intro home env fs domainRoot rest
    rfl
  · intro home serviceName now env1 env2 st domainRoot rest certB keyB cert
      hcert hkey hparse hfresh hkne hw1 hw2
    have hcne : certB.isEmpty = false := parseCertificate_ok_nonempty certB cert hparse
    have hwr : s3WorkingRecord serviceName st.store domainRoot = (certB, keyB) := by
      simp [s3WorkingRecord, S3ACMEStorage.DownloadCert, hcert, hkey]
    have htr : s3TimeToRenew now certB = false := by
      simp [s3TimeToRenew, certExpiresSoon, hparse, not_le.mpr hfresh]
    have hpub1 : certPublishStep home env1.selfSigned env1.diskWrite st.localFs domainRoot
        certB keyB =
        (Store.put (Store.put (removeExisting home st.localFs domainRoot)
            (localCertDir home ++ [domainRoot, "cert.pem"]) certB)
          (localCertDir home ++ [domainRoot, "privkey.pem"]) keyB, .ok) := by
      simp [certPublishStep, writeCertToFilesToDisk, GetLocalCertFilenames, hcne, hkne, hw1]
    have hred1 : S3ACMEStorage.UpdateTLS home serviceName now env1 st (domainRoot :: rest) =
        ⟨⟨st.store, Store.put (Store.put (removeExisting home st.localFs domainRoot)
            (localCertDir home ++ [domainRoot, "cert.pem"]) certB)
          (localCertDir home ++ [domainRoot, "privkey.pem"]) keyB⟩, .ok, false⟩ := by
      simp [S3ACMEStorage.UpdateTLS, hwr, htr, hpub1]
    have hfs1 := get_write_pair (removeExisting home st.localFs domainRoot)
      (localCertDir home ++ [domainRoot, "cert.pem"])
      (localCertDir home ++ [domainRoot, "privkey.pem"]) certB keyB
      (localCertPath_ne_keyPath home domainRoot)
    set fs1 : Store := Store.put (Store.put (removeExisting home st.localFs domainRoot)
        (localCertDir home ++ [domainRoot, "cert.pem"]) certB)
      (localCertDir home ++ [domainRoot, "privkey.pem"]) keyB with hfs1def
    have hwr2 : s3WorkingRecord serviceName st.store domainRoot = (certB, keyB) := hwr
    have hpub2 : certPublishStep home env2.selfSigned env2.diskWrite fs1 domainRoot
        certB keyB =
        (Store.put (Store.put (removeExisting home fs1 domainRoot)
            (localCertDir home ++ [domainRoot, "cert.pem"]) certB)
          (localCertDir home ++ [domainRoot, "privkey.pem"]) keyB, .ok) := by
      simp [certPublishStep, writeCertToFilesToDisk, GetLocalCertFilenames, hcne, hkne, hw2]
    have hred2 : S3ACMEStorage.UpdateTLS home serviceName now env2 ⟨st.store, fs1⟩
        (domainRoot :: rest) =
        ⟨⟨st.store, Store.put (Store.put (removeExisting home fs1 domainRoot)
            (localCertDir home ++ [domainRoot, "cert.pem"]) certB)
          (localCertDir home ++ [domainRoot, "privkey.pem"]) keyB⟩, .ok, false⟩ := by
      simp [S3ACMEStorage.UpdateTLS, hwr, htr, hpub2]
    have hfs2 := get_write_pair (removeExisting home fs1 domainRoot)
      (localCertDir home ++ [domainRoot, "cert.pem"])
      (localCertDir home ++ [domainRoot, "privkey.pem"]) certB keyB
      (localCertPath_ne_keyPath home domainRoot)
    rw [hred1]
    refine ⟨rfl, rfl, rfl, ?_, ?_, hfs1.1, hfs1.2, ?_, ?_⟩
    · rw [hred2]
    · rw [hred2]
    · rw [hred2]; exact hfs2.1
    · rw [hred2]; exact hfs2.2

/-- Witness for `reconcile_idempotence_behavior`: a concrete local pass (it
always renews) and a concrete fresh S3 group reconciled twice. -/
theorem reconcile_idempotence_behavior_witness :
    (LocalACMEStorage.UpdateTLS "h" ⟨.ok (Bytes.blob [2], Bytes.blob [3]),
        .ok (Bytes.blob [8], Bytes.blob [9]), none, none, none⟩ []
        ["example.com"]).renewalAttempted = true ∧
    ((S3ACMEStorage.UpdateTLS "h" "svc" 0 ⟨.error "", .error "", none, none, none⟩
        ⟨[(s3CertKey "svc" "example.com", Bytes.pem (.cert (some 24000)) 0),
          (s3PrivKeyKey "svc" "example.com", Bytes.blob [3])], []⟩
        ["example.com"]).renewalAttempted = false ∧
      (S3ACMEStorage.UpdateTLS "h" "svc" 0 ⟨.error "", .error "", none, none, none⟩
        ⟨[(s3CertKey "svc" "example.com", Bytes.pem (.cert (some 24000)) 0),
          (s3PrivKeyKey "svc" "example.com", Bytes.blob [3])], []⟩
        ["example.com"]).ret = .ok) := by
  constructor
  · exact reconcile_idempotence_behavior.1 "h" _ [] "example.com" []
  · have h := reconcile_idempotence_behavior.2 "h" "svc" 0
      ⟨.error "", .error "", none, none, none⟩ ⟨.error "", .error "", none, none, none⟩
      ⟨[(s3CertKey "svc" "example.com", Bytes.pem (.cert (some 24000)) 0),
        (s3PrivKeyKey "svc" "example.com", Bytes.blob [3])], []⟩
      "example.com" [] (Bytes.pem (.cert (some 24000)) 0) (Bytes.blob [3]) ⟨24000⟩
      rfl rfl rfl (by decide) rfl rfl rfl
    exact ⟨h.1, h.2.1⟩

theorem strAppend_json_ne_pem (e : String) : e ++ ".json" ≠ e ++ ".pem" := by
  intro h
  have hl := congrArg String.length h
  simp [String.length_append] at hl
  exact absurd hl (by decide)

theorem strAppend_json_inj {e f : String} (h : e ++ ".json" = f ++ ".json") : e = f := by
  have hd := congrArg String.data h
  simp only [String.data_append] at hd
  exact String.ext (List.append_cancel_right hd)

theorem strAppend_pem_ne_regjson (e : String) : e ++ ".pem" ≠ "registration.json" := by
  intro h
  have hd := congrArg String.data h
  simp only [String.data_append] at hd
  have hrev := congrArg List.reverse hd
  simp only [List.reverse_append] at hrev
  have hh := congrArg List.head? hrev
  simp at hh

theorem strAppend_json_ne_regjson {e : String} (he : e ≠ "registration") :
    e ++ ".json" ≠ "registration.json" := by
  intro h
  exact he (strAppend_json_inj (h.trans (by decide)))

theorem fpath_snoc_inj_left {a b : FPath} {x : String} (h : a ++ [x] = b ++ [x]) : a = b :=
  List.append_cancel_right h

theorem fpath_snoc_ne {a : FPath} {x y : String} (h : x ≠ y) : a ++ [x] ≠ a ++ [y] := by
  intro heq
  have hc := List.append_cancel_left heq
  simp only [List.cons.injEq, and_true] at hc
  exact h hc

/-- C10: `SaveUser` writes the user JSON under the loadmaster home directory
but the key PEM under the working directory, while `LoadUser` reads both
relative to the working directory; so the save-then-load round-trip for the
same email returns the saved user when the working directory is the loadmaster
home directory, and fails to read the user file when it is not (no stale user
file present). -/
theorem saveUser_loadUser_roundtrip :
    (∀ home fs user kid, user.key = some kid → user.Email ≠ "registration" →
      Store.get fs (loadmasterHomeDir home ++ ["registration.json"]) = none →
      (LocalACMEStorage.SaveUser home (loadmasterHomeDir home) fs user).2 = none ∧
      LocalACMEStorage.LoadUser (loadmasterHomeDir home)
        (LocalACMEStorage.SaveUser home (loadmasterHomeDir home) fs user).1 user.Email =
        .ok user)
    ∧ (∀ home cwd fs user kid, user.key = some kid → cwd ≠ loadmasterHomeDir home →
      Store.get fs (cwd ++ [user.Email ++ ".json"]) = none →
      LocalACMEStorage.LoadUser cwd
        (LocalACMEStorage.SaveUser home cwd fs user).1 user.Email =
        .error "error reading user file") := by
  constructor
  · intro home fs user kid hkey hemail hfs
    obtain ⟨Email, Reg, key⟩ := user
    simp only at hkey hemail
    subst hkey
    have hne1 : loadmasterHomeDir home ++ [Email ++ ".pem"] ≠
        loadmasterHomeDir home ++ [Email ++ ".json"] :=
      fpath_snoc_ne (Ne.symm (strAppend_json_ne_pem Email))
    have hne2 : loadmasterHomeDir home ++ [Email ++ ".pem"] ≠
        loadmasterHomeDir home ++ ["registration.json"] :=
      fpath_snoc_ne (strAppend_pem_ne_regjson Email)
    have hne3 : loadmasterHomeDir home ++ [Email ++ ".json"] ≠
        loadmasterHomeDir home ++ ["registration.json"] :=
      fpath_snoc_ne (strAppend_json_ne_regjson hemail)
    constructor
    · simp [LocalACMEStorage.SaveUser]
    · simp [LocalACMEStorage.SaveUser, LocalACMEStorage.LoadUser,
        LocalACMEStorage.LoadRegistration, jsonUnmarshalUser, jsonUnmarshalRegistration,
        Store.put, Store.get, hne1, hne2, hne3, hfs]
  · intro home cwd fs user kid hkey hcwd hstale
    obtain ⟨Email, Reg, key⟩ := user
    simp only at hkey
    subst hkey
    have hne1 : cwd ++ [Email ++ ".pem"] ≠ cwd ++ [Email ++ ".json"] :=
      fpath_snoc_ne (Ne.symm (strAppend_json_ne_pem Email))
    have hne4 : loadmasterHomeDir home ++ [Email ++ ".json"] ≠ cwd ++ [Email ++ ".json"] :=
      fun heq => hcwd (fpath_snoc_inj_left heq).symm
    simp [LocalACMEStorage.SaveUser, LocalACMEStorage.LoadUser,
      Store.put, Store.get, hne1, hne4, hstale]

/-- Witness for `saveUser_loadUser_roundtrip`: a concrete user saved and
reloaded from the home directory, and the failing load when the working
directory differs. -/
theorem saveUser_loadUser_roundtrip_witness :
    ((LocalACMEStorage.SaveUser "h" (loadmasterHomeDir "h") [] ⟨"e@x", some 3, some 5⟩).2 =
        none ∧
      LocalACMEStorage.LoadUser (loadmasterHomeDir "h")
        (LocalACMEStorage.SaveUser "h" (loadmasterHomeDir "h") []
          ⟨"e@x", some 3, some 5⟩).1 "e@x" = .ok ⟨"e@x", some 3, some 5⟩) ∧
    LocalACMEStorage.LoadUser ["elsewhere"]
      (LocalACMEStorage.SaveUser "h" ["elsewhere"] [] ⟨"e@x", some 3, some 5⟩).1 "e@x" =
      .error "error reading user file" := by
  constructor
  · exact saveUser_loadUser_roundtrip.1 "h" [] ⟨"e@x", some 3, some 5⟩ 5 rfl
      (by decide) rfl
  · exact saveUser_loadUser_roundtrip.2 "h" ["elsewhere"] [] ⟨"e@x", some 3, some 5⟩ 5 rfl
      (by decide) rfl
